import Mathlib

/-!
Shallow embedding of src/claude_csv_report_generator.py (Arts Recruitin CSV
report generator).

Modelling conventions:
- CSV rows become typed records (Prospect, Sector) holding exactly the fields
  the program reads; numeric CSV columns are modelled as Int.
- Fallible I/O is made explicit: CSV reads are an Except value (the outcome of
  pd.read_csv), the Claude API call is an oracle of type
  String -> Except String String, and the per-prospect file write and metadata
  write of the weekly batch can each fail, driven by Boolean oracles indexed by
  loop position. A raised Python exception corresponds to the error / false
  branch of the oracle.
- The filesystem is a list of (path, content) pairs, newest first; the
  analytics CSV is modelled separately as Option (list of rows), none meaning
  the file does not exist yet.
- The Python substring operator (needle in hay) is embedded as substrB, and
  str.lower as strLower (ASCII case folding via Char.toLower).
-/

/-- A prospect row of prospects CSV, with the fields the program reads. -/
structure Prospect where
  company_name : String
  industry : String
  company_size : String
  location : String
  job_title : String
  salary_min : Int
  salary_max : Int
  days_open : Int
  contact_name : String
  contact_title : String
  tier_score : Int
deriving DecidableEq

/-- A market-data row of the market CSV, with the fields the program reads. -/
structure Sector where
  sector : String
  average_salary : Int
  open_positions : Int
  growth_percentage : Int
  top_skills : String
  market_trend : String
deriving DecidableEq

/-- Helper for substrB: does the first char list start the second one. -/
def charsPrefx : List Char → List Char → Bool
  | [], _ => true
  | _ :: _, [] => false
  | a :: as, b :: bs => a == b && charsPrefx as bs

/-- Helper for substrB: does the needle occur somewhere in the haystack. -/
def charsInfx (needle : List Char) : List Char → Bool
  | [] => charsPrefx needle []
  | b :: bs => charsPrefx needle (b :: bs) || charsInfx needle bs

/-- Embedding of the Python expression (needle in hay) on strings:
substring occurrence test. -/
def substrB (needle hay : String) : Bool :=
  charsInfx needle.data hay.data

/-- Embedding of Python str.lower (ASCII case folding, which covers the
sector and industry values the program compares). -/
def strLower (s : String) : String :=
  ⟨s.data.map Char.toLower⟩

/-- Helper for fmtComma: given the digits in reverse order, insert a comma
after every group of three (working from the least significant digit). -/
def groupRev : List Char → List Char
  | d1 :: d2 :: d3 :: d4 :: rest => d1 :: d2 :: d3 :: ',' :: groupRev (d4 :: rest)
  | l => l

/-- Embedding of the Python format spec used in the context f-strings,
writing an integer with thousands separators. -/
def fmtComma (n : Int) : String :=
  (if n < 0 then "-" else "") ++ String.mk ((groupRev (toString n.natAbs).data.reverse).reverse)

/-- The PROSPECT DATA header of the context built by
ClaudeClient.generate_report (source lines 136-149). -/
def contextHeader (p : Prospect) : String :=
  "\nPROSPECT DATA:\nCompany: " ++ p.company_name ++
  "\nIndustry: " ++ p.industry ++
  "\nSize: " ++ p.company_size ++
  "\nLocation: " ++ p.location ++
  "\nRole: " ++ p.job_title ++
  "\nSalary Range: €" ++ fmtComma p.salary_min ++ " - €" ++ fmtComma p.salary_max ++
  "\nDays Open: " ++ toString p.days_open ++
  "\nContact: " ++ p.contact_name ++ " (" ++ p.contact_title ++ ")" ++
  "\nTier Score: " ++ toString p.tier_score ++ "/100\n\nMARKET CONTEXT:\n"

/-- The per-sector block appended to the context for a matching market row
(source lines 154-161). -/
def sectorBlock (s : Sector) : String :=
  "\nSector: " ++ s.sector ++
  "\nAverage Salary: €" ++ fmtComma s.average_salary ++
  "\nOpen Positions: " ++ toString s.open_positions ++
  "\nGrowth: " ++ toString s.growth_percentage ++ "%" ++
  "\nSkills in Demand: " ++ s.top_skills ++
  "\nMarket Trend: " ++ s.market_trend ++ "\n"

/-- The market-context loop of ClaudeClient.generate_report (source lines
151-161): for each market row, append its block when its sector name occurs
in the industry field of the prospect. -/
def addMarketRows (p : Prospect) : List Sector → String → String
  | [], context => context
  | s :: rest, context =>
    addMarketRows p rest (if substrB s.sector p.industry then context ++ sectorBlock s else context)

/-- The full context string built by ClaudeClient.generate_report. -/
def buildContext (p : Prospect) (market_context : List Sector) : String :=
  addMarketRows p market_context (contextHeader p)

/-- The full prompt submitted to the API (source line 163). -/
def fullPrompt (prompt : String) (p : Prospect) (market_context : List Sector) : String :=
  prompt ++ "\n\n" ++ buildContext p market_context

/-- ClaudeClient.generate_report (source lines 132-174). The API call is an
oracle; the try/except around it turns an API error into the literal string
"Error generating report: " followed by the error. -/
def generate_report (api : String → Except String String) (prompt : String)
    (prospect_data : Prospect) (market_context : List Sector) : String :=
  match api (fullPrompt prompt prospect_data market_context) with
  | Except.ok response => response
  | Except.error e => "Error generating report: " ++ e

/-- The descending tier-score ordering used by
df.sort_values on tier_score with ascending=False. -/
def tierGE (a b : Prospect) : Prop := b.tier_score ≤ a.tier_score

instance : DecidableRel tierGE :=
  fun a b => inferInstanceAs (Decidable (b.tier_score ≤ a.tier_score))

instance : IsTotal Prospect tierGE :=
  ⟨fun a b => Int.le_total b.tier_score a.tier_score⟩

instance : IsTrans Prospect tierGE :=
  ⟨fun _ _ _ h1 h2 => le_trans h2 h1⟩

/-- Stable descending sort by tier score, embedding
df.sort_values on tier_score with ascending=False. -/
def sortByTierDesc (l : List Prospect) : List Prospect :=
  List.insertionSort tierGE l

/-- CSVDataManager.get_prospects (source lines 83-92): on a successful read,
sort descending by tier score and keep the first limit rows; on any read
failure return the empty list. -/
def get_prospects (r : Except String (List Prospect)) (limit : Nat) : List Prospect :=
  match r with
  | Except.ok rows => (sortByTierDesc rows).take limit
  | Except.error _ => []

/-- CSVDataManager.get_market_data (source lines 94-101): the rows on a
successful read, the empty list on any read failure. -/
def get_market_data (r : Except String (List Sector)) : List Sector :=
  match r with
  | Except.ok rows => rows
  | Except.error _ => []

/-- Number of prospect records available from a read outcome. -/
def availableRecords (r : Except String (List Prospect)) : Nat :=
  match r with
  | Except.ok rows => rows.length
  | Except.error _ => 0

/-- The 6-column header row of the analytics CSV (source line 111). -/
def metaHeader : List String :=
  ["timestamp", "report_type", "company_name", "file_path", "success", "processing_time"]

/-- The report_data fields serialised into one analytics row. -/
structure ReportMeta where
  timestamp : String
  report_type : String
  company_name : String
  file_path : String
  success : Bool
  processing_time : String
deriving DecidableEq

/-- Python str of a Boolean, as the csv writer renders it. -/
def pyBool (b : Bool) : String := if b then "True" else "False"

/-- The data row written for one report (source lines 116-123). -/
def metaRow (m : ReportMeta) : List String :=
  [m.timestamp, m.report_type, m.company_name, m.file_path, pyBool m.success, m.processing_time]

/-- CSVDataManager.save_report_metadata (source lines 103-123): when the
analytics file does not exist, it is created with the header row; then the
record is appended after the existing content. -/
def save_report_metadata (file : Option (List (List String))) (m : ReportMeta) :
    Option (List (List String)) :=
  let rows := match file with
    | none => [metaHeader]
    | some rs => rs
  some (rows ++ [metaRow m])

/-- Filesystem model: written files as (path, content) pairs, newest first. -/
abbrev FS := List (String × String)

/-- Writing a file (open with mode w): the new content shadows any older
entry for the same path. -/
def fsWrite (fs : FS) (path content : String) : FS := (path, content) :: fs

/-- Does a file with this path exist. -/
def fsHas (fs : FS) (path : String) : Bool := fs.any (fun e => e.1 == path)

/-- The weekly prompt template (source lines 189-203). -/
def weeklyTemplate : String :=
  "\nSchrijf een professionele Nederlandse recruitment markt analyse voor dit bedrijf.\n\nSTRUCTUUR:\n1. Executive Summary (2-3 zinnen)\n2. Bedrijfsanalyse (positie in de markt)\n3. Functie-analyse (specifieke rol details)\n4. Marktcontext (salary benchmarks, groei trends)\n5. Recruitment strategie aanbevelingen\n6. Actie items\n\nSchrijf in professionele maar toegankelijke Nederlandse taal.\nGebruik concrete cijfers en data waar beschikbaar.\nHoud het beknopt maar informatief (max 800 woorden).\n"

/-- Environment of one weekly batch run: the API oracle, the output
directory, the clock values the program formats, and the failure oracles for
the file write and the metadata write of each loop position (the raised
exception of the source corresponds to a false answer). -/
structure WeeklyEnv where
  api : String → Except String String
  outputDir : String
  dateStamp : String
  genTime : String
  nowIso : Nat → String
  procTime : Nat → String
  writeRes : Nat → Bool
  metaRes : Nat → Bool

/-- Output path of one weekly report (source lines 244-246). -/
def weeklyPath (env : WeeklyEnv) (p : Prospect) : String :=
  env.outputDir ++ "/Weekly_Report_" ++ p.company_name.replace " " "_" ++ "_" ++
    env.dateStamp ++ ".md"

/-- Content written to one weekly report file (source lines 248-251). -/
def weeklyFileContent (env : WeeklyEnv) (p : Prospect) (market : List Sector) : String :=
  "# Weekly Recruitment Report - " ++ p.company_name ++ "\n\n" ++
  "**Generated:** " ++ env.genTime ++ "\n\n" ++
  generate_report env.api weeklyTemplate p market

/-- Metadata record appended after a successful weekly write
(source lines 256-262). -/
def weeklyMeta (env : WeeklyEnv) (i : Nat) (p : Prospect) (path : String) : ReportMeta :=
  { timestamp := env.nowIso i
    report_type := "weekly"
    company_name := p.company_name
    file_path := path
    success := true
    processing_time := env.procTime i }

/-- State threaded through the weekly batch: the filesystem, the analytics
file and the report_files list accumulated so far. -/
structure WeeklyState where
  fs : FS
  analytics : Option (List (List String))
  paths : List String

/-- The per-prospect loop of ReportGenerator.generate_weekly_reports (source
lines 232-268). On a write failure the whole body of the try block is
abandoned (log and continue); on a metadata failure the file is already
written and its path already collected, and the loop also continues. -/
def weeklyLoop (env : WeeklyEnv) (market : List Sector) :
    List Prospect → Nat → WeeklyState → WeeklyState
  | [], _, st => st
  | p :: rest, i, st =>
    if env.writeRes i then
      let path := weeklyPath env p
      let fs1 := fsWrite st.fs path (weeklyFileContent env p market)
      let paths1 := st.paths ++ [path]
      let an1 := if env.metaRes i then save_report_metadata st.analytics (weeklyMeta env i p path)
        else st.analytics
      weeklyLoop env market rest (i + 1) ⟨fs1, an1, paths1⟩
    else
      weeklyLoop env market rest (i + 1) st

/-- ReportGenerator.generate_weekly_reports (source lines 223-273): read the
prospects (top prospects_count) and the market data, then run the batch loop
starting from an empty report_files list. -/
def generate_weekly_reports (env : WeeklyEnv) (rp : Except String (List Prospect))
    (rm : Except String (List Sector)) (prospects_count : Nat)
    (fs0 : FS) (an0 : Option (List (List String))) : WeeklyState :=
  weeklyLoop env (get_market_data rm) (get_prospects rp prospects_count) 0 ⟨fs0, an0, []⟩

/-- The market-data filter of ReportGenerator.generate_monthly_report
(source lines 284-285). -/
def filterMarket (sector : String) (market_data : List Sector) : List Sector :=
  if sector ≠ "all" then
    market_data.filter (fun item => substrB (strLower sector) (strLower item.sector))
  else market_data

/-- The prospects filter of ReportGenerator.generate_monthly_report
(source lines 284-286). -/
def filterProspects (sector : String) (prospects : List Prospect) : List Prospect :=
  if sector ≠ "all" then
    prospects.filter (fun item => substrB (strLower sector) (strLower item.industry))
  else prospects

/-- The aggregated context of the monthly report (source lines 289-295). -/
structure MonthlyContext where
  sector : String
  total_prospects : Nat
  market_segments : Nat
  avg_salary : Int
  total_positions : Int

/-- The data-gathering and aggregation part of
ReportGenerator.generate_monthly_report (source lines 280-295): read market
data, read the top 50 prospects, filter both by the sector argument unless it
equals "all", then aggregate. The average salary uses integer floor division
and defaults to 0 on an empty filtered market list. -/
def generate_monthly_context (sector : String) (rp : Except String (List Prospect))
    (rm : Except String (List Sector)) : MonthlyContext :=
  let market_data := filterMarket sector (get_market_data rm)
  let prospects := filterProspects sector (get_prospects rp 50)
  { sector := sector
    total_prospects := prospects.length
    market_segments := market_data.length
    avg_salary :=
      if market_data.isEmpty then 0
      else Int.fdiv ((market_data.map (fun item => item.average_salary)).sum)
        (market_data.length : Int)
    total_positions := (market_data.map (fun item => item.open_positions)).sum }

/-- Concatenation of a list of strings, used to state which sector blocks the
formatter emits. -/
def concatStrs : List String → String
  | [] => ""
  | s :: rest => s ++ concatStrs rest

/-- Sample prospect used by witnesses. -/
def pW1 : Prospect :=
  { company_name := "Acme BV"
    industry := "Tech Software"
    company_size := "50-100"
    location := "Utrecht"
    job_title := "Software Engineer"
    salary_min := 50000
    salary_max := 70000
    days_open := 12
    contact_name := "J. Jansen"
    contact_title := "HR Manager"
    tier_score := 50 }

/-- Second sample prospect with the same tier score. -/
def pW2 : Prospect :=
  { pW1 with company_name := "Beta BV", tier_score := 50 }

/-- Sample market rows used by witnesses. -/
def sW1 : Sector :=
  { sector := "Tech"
    average_salary := 65000
    open_positions := 120
    growth_percentage := 8
    top_skills := "Python, SQL"
    market_trend := "Stijgend" }

/-- Second sample market row, not matching the tech filter. -/
def sW2 : Sector :=
  { sector := "Bouw"
    average_salary := 55000
    open_positions := 80
    growth_percentage := 3
    top_skills := "BIM"
    market_trend := "Stabiel" }

/-! ## Theorems -/

/-- Helper for C7: the market loop appends exactly the blocks of the matching
rows, in source order, after the accumulator. -/
theorem addMarketRows_eq (p : Prospect) (ms : List Sector) (acc : String) :
    addMarketRows p ms acc =
      acc ++ concatStrs ((ms.filter fun s => substrB s.sector p.industry).map sectorBlock) := by
  induction ms generalizing acc with
  | nil => simp [addMarketRows, concatStrs]
  | cons s rest ih =>
    by_cases h : substrB s.sector p.industry = true
    · simp [addMarketRows, h, List.filter_cons, ih, concatStrs, String.append_assoc]
    · simp [addMarketRows, h, List.filter_cons, ih]

/-- Claim C7: the context block built for a subject contains, after the
prospect header, exactly the blocks of the market rows whose sector field is
a case-sensitive substring of the industry field of the subject,
concatenated in the order the rows occur in the input sequence. -/
theorem c7_formatter_matching_rows (p : Prospect) (market : List Sector) :
    buildContext p market =
      contextHeader p ++
        concatStrs ((market.filter fun s => substrB s.sector p.industry).map sectorBlock) :=
  addMarketRows_eq p market (contextHeader p)

/-- Claim C1: generate_report is a total function of the API outcome: when the
API call succeeds it returns the generated text, and when the API call fails
it returns the string "Error generating report: " followed by the error
message; no exception escapes. -/
theorem c1_generate_report_never_throws (api : String → Except String String)
    (prompt : String) (p : Prospect) (market : List Sector) :
    (∀ t, api (fullPrompt prompt p market) = Except.ok t →
      generate_report api prompt p market = t) ∧
    (∀ e, api (fullPrompt prompt p market) = Except.error e →
      generate_report api prompt p market = "Error generating report: " ++ e) := by
  refine ⟨fun t h => ?_, fun e h => ?_⟩
  · simp [generate_report, h]
  · simp [generate_report, h]

/-- Witness for C1 at a concrete failing transport. -/
theorem c1_witness :
    generate_report (fun _ => Except.error "connection timeout") weeklyTemplate pW1 [] =
      "Error generating report: " ++ "connection timeout" :=
  (c1_generate_report_never_throws (fun _ => Except.error "connection timeout")
    weeklyTemplate pW1 []).2 "connection timeout" rfl

/-- Claim C8: on any read failure both data source readers return the empty
sequence instead of raising. -/
theorem c8_readers_return_empty_on_failure (e : String) (limit : Nat) :
    get_prospects (Except.error e) limit = [] ∧ get_market_data (Except.error e) = [] :=
  ⟨rfl, rfl⟩

/-- Claim C9: the analytics file is append-only. Starting from a non-existent
file, two sequential saves leave exactly the header row followed by the two
data rows in call order; a save onto an existing file appends exactly one row
after the existing content, leaving every earlier row unchanged; a save onto a
non-existent file writes the header exactly once, before the data row. -/
theorem c9_metadata_append_only :
    (∀ m1 m2 : ReportMeta,
        save_report_metadata (save_report_metadata none m1) m2 =
          some [metaHeader, metaRow m1, metaRow m2]) ∧
    (∀ (rows : List (List String)) (m : ReportMeta),
        save_report_metadata (some rows) m = some (rows ++ [metaRow m])) ∧
    (∀ m : ReportMeta, save_report_metadata none m = some [metaHeader, metaRow m]) :=
  ⟨fun _ _ => rfl, fun _ _ => rfl, fun _ => rfl⟩

/-- Claim C3: for a filter value other than "all", a market row of the input
is kept by the monthly sector filter iff the lowercased filter occurs as a
substring of its lowercased sector field; the filter value "all" bypasses
filtering and keeps every row. -/
theorem c3_sector_filter_case_insensitive (sector : String) (md : List Sector) :
    (sector ≠ "all" →
      ∀ item ∈ md,
        (item ∈ filterMarket sector md ↔
          substrB (strLower sector) (strLower item.sector) = true)) ∧
    (sector = "all" → filterMarket sector md = md) := by
  refine ⟨fun hne item hitem => ?_, fun heq => ?_⟩
  · simp [filterMarket, hne, List.mem_filter, hitem]
  · simp [filterMarket, heq]

/-- Witness for C3: the sample tech row passes the filter "tech". -/
theorem c3_witness : sW1 ∈ filterMarket "tech" [sW1, sW2] :=
  ((c3_sector_filter_case_insensitive "tech" [sW1, sW2]).1 (by decide) sW1
    (by simp)).mpr (by decide)

/-- Counterexample for C5 as stated: with two prospects of equal tier score
the processed sequence is not strictly descending. -/
theorem c5_counterexample :
    ¬ List.Chain' (fun a b : Prospect => b.tier_score < a.tier_score)
      (get_prospects (Except.ok [pW1, pW2]) 10) := by
  intro hch
  have hlist : get_prospects (Except.ok [pW1, pW2]) 10 = [pW1, pW2] := by rfl
  rw [hlist] at hch
  exact absurd (List.chain'_cons.mp hch).1 (by decide)

/-- Claim C5 (amended): the batch processes prospects in non-increasing
tier-score order — for any two consecutively processed prospects the earlier
one has a tier score greater than or equal to that of the later one; with
ties the order is not strict. -/
theorem c5_amended_nonincreasing_order (r : Except String (List Prospect)) (limit : Nat) :
    List.Chain' (fun a b : Prospect => b.tier_score ≤ a.tier_score)
      (get_prospects r limit) := by
  cases r with
  | error e => simp [get_prospects]
  | ok rows =>
    have hs : List.Sorted tierGE (sortByTierDesc rows) :=
      List.sorted_insertionSort tierGE rows
    have hp : List.Pairwise tierGE ((sortByTierDesc rows).take limit) :=
      List.Pairwise.sublist (List.take_sublist limit _) hs
    exact (hp.imp fun h => h).chain'

/-- Helper for C2 and C6: the weekly loop extends the collected path list by
exactly the paths of the prospects whose file write succeeds, in processing
order. -/
theorem weeklyLoop_paths (env : WeeklyEnv) (market : List Sector) (ps : List Prospect)
    (i : Nat) (st : WeeklyState) :
    (weeklyLoop env market ps i st).paths =
      st.paths ++
        ((List.enumFrom i ps).filter fun x => env.writeRes x.1).map
          (fun x => weeklyPath env x.2) := by
  induction ps generalizing i st with
  | nil => simp [weeklyLoop, List.enumFrom]
  | cons p rest ih =>
    by_cases h : env.writeRes i = true
    · simp [weeklyLoop, h, List.enumFrom, List.filter_cons, ih, List.append_assoc]
    · simp [weeklyLoop, h, List.enumFrom, List.filter_cons, ih]

/-- Claim C2: the weekly batch considers every selected prospect in turn —
a failure at one prospect (a false write oracle, the raised exception of the
source) does not abort the loop — and the returned list is exactly the paths
of the successfully written reports, in processing order. -/
theorem c2_weekly_batch_skips_failures (env : WeeklyEnv)
    (rp : Except String (List Prospect)) (rm : Except String (List Sector))
    (prospects_count : Nat) (fs0 : FS) (an0 : Option (List (List String))) :
    (generate_weekly_reports env rp rm prospects_count fs0 an0).paths =
      ((List.enumFrom 0 (get_prospects rp prospects_count)).filter
          fun x => env.writeRes x.1).map (fun x => weeklyPath env x.2) := by
  simpa [generate_weekly_reports] using
    weeklyLoop_paths env (get_market_data rm) (get_prospects rp prospects_count) 0
      ⟨fs0, an0, []⟩

/-- Helper for C6: writing one file preserves the existence of every file. -/
theorem fsHas_fsWrite (fs : FS) (q c path : String) (h : fsHas fs path = true) :
    fsHas (fsWrite fs q c) path = true := by
  simp only [fsWrite, fsHas, List.any_cons]
  simp only [fsHas] at h
  rw [h]
  simp

/-- Helper for C6: the file just written exists. -/
theorem fsHas_fsWrite_self (fs : FS) (q c : String) :
    fsHas (fsWrite fs q c) q = true := by
  simp [fsWrite, fsHas]

/-- Helper for C6: every path collected by the weekly loop names a file of the
final filesystem, provided the invariant held on entry. -/
theorem weeklyLoop_paths_written (env : WeeklyEnv) (market : List Sector)
    (ps : List Prospect) (i : Nat) (st : WeeklyState)
    (hinv : ∀ q ∈ st.paths, fsHas st.fs q = true) :
    ∀ q ∈ (weeklyLoop env market ps i st).paths,
      fsHas (weeklyLoop env market ps i st).fs q = true := by
  induction ps generalizing i st with
  | nil => simpa [weeklyLoop] using hinv
  | cons p rest ih =>
    by_cases h : env.writeRes i = true
    · simp only [weeklyLoop, h, if_true]
      apply ih
      intro q hq
      rcases List.mem_append.mp hq with hq | hq
      · exact fsHas_fsWrite _ _ _ _ (hinv q hq)
      · rcases List.mem_singleton.mp hq with rfl
        exact fsHas_fsWrite_self _ _ _
    · simp only [weeklyLoop, h, if_false]
      exact ih _ _ hinv

/-- Helper: get_prospects returns at most limit records. -/
theorem get_prospects_length_le (r : Except String (List Prospect)) (limit : Nat) :
    (get_prospects r limit).length ≤ limit := by
  cases r with
  | error e => simp [get_prospects]
  | ok rows => exact List.length_take_le limit _

/-- Claim C6: with a prospect limit N no greater than the number of available
records, the weekly batch returns at most N file paths, and every returned
path names a file of the filesystem at return time. -/
theorem c6_weekly_bounded_and_written (env : WeeklyEnv)
    (rp : Except String (List Prospect)) (rm : Except String (List Sector))
    (N : Nat) (fs0 : FS) (an0 : Option (List (List String)))
    (h : N ≤ availableRecords rp) :
    (generate_weekly_reports env rp rm N fs0 an0).paths.length ≤ N ∧
    ∀ q ∈ (generate_weekly_reports env rp rm N fs0 an0).paths,
      fsHas (generate_weekly_reports env rp rm N fs0 an0).fs q = true := by
  constructor
  · simp only [generate_weekly_reports]
    rw [weeklyLoop_paths]
    simp only [List.nil_append, List.length_map]
    calc ((List.enumFrom 0 (get_prospects rp N)).filter
            fun x => env.writeRes x.1).length
        ≤ (List.enumFrom 0 (get_prospects rp N)).length := List.length_filter_le _ _
      _ = (get_prospects rp N).length := by simp
      _ ≤ N := get_prospects_length_le rp N
  · exact weeklyLoop_paths_written env (get_market_data rm) (get_prospects rp N) 0
      ⟨fs0, an0, []⟩ (by simp)

/-- Concrete environment used by witnesses: every operation succeeds. -/
def envW : WeeklyEnv :=
  { api := fun _ => Except.ok "verslagtekst"
    outputDir := "./generated_reports"
    dateStamp := "20261012"
    genTime := "12-10-2026 10:00"
    nowIso := fun _ => "2026-10-12T10:00:00"
    procTime := fun _ => "1.0"
    writeRes := fun _ => true
    metaRes := fun _ => true }

/-- Witness for C6 at a concrete run with one available prospect. -/
theorem c6_witness :
    (generate_weekly_reports envW (Except.ok [pW1]) (Except.ok [sW1]) 1 [] none).paths.length ≤ 1 ∧
    ∀ q ∈ (generate_weekly_reports envW (Except.ok [pW1]) (Except.ok [sW1]) 1 [] none).paths,
      fsHas (generate_weekly_reports envW (Except.ok [pW1]) (Except.ok [sW1]) 1 [] none).fs q
        = true :=
  c6_weekly_bounded_and_written envW (Except.ok [pW1]) (Except.ok [sW1]) 1 [] none (by decide)

/-- Helper for C4: characterisation of floor division by a positive count —
the quotient times the count bounds the sum below, and one more exceeds it. -/
theorem fdiv_floor_bounds (s : Int) (n : Nat) (hn : 0 < n) :
    (n : Int) * (Int.fdiv s n) ≤ s ∧ s < (n : Int) * (Int.fdiv s n + 1) := by
  have hb : (0 : Int) < (n : Int) := by exact_mod_cast hn
  rw [Int.fdiv_eq_ediv s (le_of_lt hb)]
  have h1 := Int.ediv_add_emod s (n : Int)
  have h2 := Int.emod_nonneg s (ne_of_gt hb)
  have h3 := Int.emod_lt_of_pos s hb
  constructor
  · linarith
  · nlinarith

/-- Claim C4: in the monthly aggregation, when the filtered market-data
sequence is empty the average-salary aggregate is 0 (no division by zero),
and when it is non-empty the aggregate is the floor of the sum of the
average_salary fields divided by the number of records, characterised by the
two floor-division bounds. -/
theorem c4_avg_salary_floor_or_zero (sector : String)
    (rp : Except String (List Prospect)) (rm : Except String (List Sector)) :
    (filterMarket sector (get_market_data rm) = [] →
      (generate_monthly_context sector rp rm).avg_salary = 0) ∧
    (filterMarket sector (get_market_data rm) ≠ [] →
      ((filterMarket sector (get_market_data rm)).length : Int) *
          (generate_monthly_context sector rp rm).avg_salary ≤
        ((filterMarket sector (get_market_data rm)).map
            (fun item => item.average_salary)).sum ∧
      ((filterMarket sector (get_market_data rm)).map
          (fun item => item.average_salary)).sum <
        ((filterMarket sector (get_market_data rm)).length : Int) *
          ((generate_monthly_context sector rp rm).avg_salary + 1)) := by
  constructor
  · intro h
    simp [generate_monthly_context, h]
  · intro h
    have hpos : 0 < (filterMarket sector (get_market_data rm)).length :=
      List.length_pos.mpr h
    have hne : (filterMarket sector (get_market_data rm)).isEmpty = false := by
      simpa [List.isEmpty_iff] using h
    have havg : (generate_monthly_context sector rp rm).avg_salary =
        Int.fdiv (((filterMarket sector (get_market_data rm)).map
            (fun item => item.average_salary)).sum)
          (((filterMarket sector (get_market_data rm)).length : Int)) := by
      simp [generate_monthly_context, hne]
    rw [havg]
    exact fdiv_floor_bounds _ _ hpos

/-- Witness for C4 on a one-row filtered market list. -/
theorem c4_witness :
    ((filterMarket "all" (get_market_data (Except.ok [sW1]))).length : Int) *
        (generate_monthly_context "all" (Except.ok []) (Except.ok [sW1])).avg_salary ≤
      ((filterMarket "all" (get_market_data (Except.ok [sW1]))).map
          (fun item => item.average_salary)).sum ∧
    ((filterMarket "all" (get_market_data (Except.ok [sW1]))).map
        (fun item => item.average_salary)).sum <
      ((filterMarket "all" (get_market_data (Except.ok [sW1]))).length : Int) *
        ((generate_monthly_context "all" (Except.ok []) (Except.ok [sW1])).avg_salary + 1) :=
  (c4_avg_salary_floor_or_zero "all" (Except.ok []) (Except.ok [sW1])).2 (by decide)

/-- Helper for C10: the prospects filter never adds records. -/
theorem filterProspects_length_le (sector : String) (l : List Prospect) :
    (filterProspects sector l).length ≤ l.length := by
  unfold filterProspects
  split
  · exact List.length_filter_le _ _
  · exact le_rfl

/-- Claim C10: the prospect aggregate of the monthly report is computed over
at most the top 50 prospects — total_prospects never exceeds 50, whatever the
sector filter and however many records the prospects file holds. -/
theorem c10_monthly_prospects_capped (sector : String)
    (rp : Except String (List Prospect)) (rm : Except String (List Sector)) :
    (generate_monthly_context sector rp rm).total_prospects ≤ 50 := by
  have h1 : (filterProspects sector (get_prospects rp 50)).length ≤
      (get_prospects rp 50).length := filterProspects_length_le _ _
  have h2 : (get_prospects rp 50).length ≤ 50 := get_prospects_length_le rp 50
  simpa [generate_monthly_context] using le_trans h1 h2
